import Mathlib

/-!
# Verification of the permission-hook command policy engine and coordination layer

Shallow embedding of the Rust sources of `permission-hook`:

* `src/permission.rs` — command segmentation, redirection stripping, program-path
  normalization, inline-script parsing, the tiered auto-approve / auto-deny checks;
* `src/main.rs` — the decision flow of `main` (exit codes, stdout/stderr);
* `src/analyzer.rs`, `src/jsonl.rs` — the transcript status analyzer;
* `src/dedup.rs` — the lease-based cross-invocation dedup (`acquire_lock`);
* `src/webhook.rs` — the circuit breaker and the webhook retry loop.

Conventions of the embedding:

* Strings are processed as `List Char`; machine integers that carry Unix timestamps
  (`i64`) are `Int`.  Character classes (`\s`, `\d`) and case-mapping are modelled on
  their ASCII subsets, which agree with the Rust `regex` crate and `str` methods on
  every input appearing in the claims.
* Regexes hard-coded in the source are implemented concretely (they are part of the
  program text); regexes taken from configuration data are abstracted by a
  `RegexEngine` oracle which models `Regex::new` (compilation may fail; the source
  skips patterns that fail to compile) and `Regex::is_match`.
* File I/O, wall-clock reads and HTTP transport are externalized: functions that
  perform them are modelled on their already-read inputs, with time passed explicitly.
-/

namespace PermissionHook

/-- Models the interface of the Rust `regex` crate as used with *configuration-supplied*
pattern strings: `compileOk p` is `Regex::new(p).is_ok()` and `rmatch p s` is
`re.is_match(s)` for the compiled pattern.  The source skips patterns whose
compilation fails. -/
structure RegexEngine where
  compileOk : String → Bool
  rmatch : String → String → Bool

/-- A `RegexEngine` that is exact for pattern strings containing no regex
metacharacters: a literal pattern compiles, and it matches a text iff it occurs in it
as a contiguous substring.  Used to instantiate counterexamples whose configurations
only contain literal patterns. -/
def litEngine : RegexEngine where
  compileOk := fun _ => true
  rmatch := fun p s => decide (p.data <:+: s.data)

/-- ASCII whitespace, as matched by `\s` in the `regex` crate and trimmed by
`str::trim` (the Unicode extensions are irrelevant to the inputs considered). -/
def isWS (c : Char) : Bool :=
  c == ' ' || c == '\t' || c == '\n' || c == '\r' || c == '\x0b' || c == '\x0c'

/-- ASCII digit, as matched by `\d`. -/
def isDigit (c : Char) : Bool := '0' ≤ c && c ≤ '9'

/-- Length of the maximal prefix of `l` whose characters satisfy `p`. -/
def countWhile (p : Char → Bool) : List Char → Nat
  | [] => 0
  | c :: rest => if p c then countWhile p rest + 1 else 0

/-- `str::trim`: remove leading and trailing whitespace. -/
def trimChars (l : List Char) : List Char :=
  ((l.dropWhile isWS).reverse.dropWhile isWS).reverse

/-! ## `strip_redirections` (src/permission.rs, lines 175–203)

Three regex passes over the segment, each written `if let Ok(re) = Regex::new(..)`
so that a pattern that fails to compile silently skips its pass:

1. `\s*\d*>&\d*` — strip `2>&1`-style duplications (`replace_all` with `""`);
2. `\s*\d*>>?\s*\S+` — strip `>`/`>>` output redirections with their targets;
3. `\s*<(?!<)\s*\S+` — intended to strip single-`<` input redirections.  The
   `regex` crate does not support look-around, so `Regex::new` on this pattern
   returns `Err` and the pass is the identity; the embedding reflects that.
-/

/-- Match of `\s*\d*>&\d*` anchored at the head of `l`: number of characters
consumed, or `none`.  `\s`, `\d`, `>`,`&` are pairwise disjoint character classes, so
the greedy runs are deterministic. -/
def matchAmp (l : List Char) : Option Nat :=
  let w := countWhile isWS l
  let l1 := l.drop w
  let d := countWhile isDigit l1
  match l1.drop d with
  | '>' :: '&' :: l2 => some (w + d + 2 + countWhile isDigit l2)
  | _ => none

/-- `\s*` then `\S+` anchored at the head of `l` (the tail of pass 2's pattern):
number of characters consumed, requiring at least one non-whitespace character. -/
def tailOut (l : List Char) : Option Nat :=
  let w := countWhile isWS l
  let t := countWhile (fun c => !isWS c) (l.drop w)
  if t = 0 then none else some (w + t)

/-- Match of `\s*\d*>>?\s*\S+` anchored at the head of `l`.  The greedy `>?` prefers
to consume a second `>`; if the remainder then fails, the engine backtracks to the
zero-width alternative (in which case the second `>` is consumed by `\S+`, which
always succeeds there). -/
def matchOut (l : List Char) : Option Nat :=
  let w := countWhile isWS l
  let l1 := l.drop w
  let d := countWhile isDigit l1
  match l1.drop d with
  | '>' :: l2 =>
    match l2 with
    | '>' :: l3 =>
      match tailOut l3 with
      | some k => some (w + d + 2 + k)
      | none =>
        match tailOut l2 with
        | some k => some (w + d + 1 + k)
        | none => none
    | _ =>
      match tailOut l2 with
      | some k => some (w + d + 1 + k)
      | none => none
  | _ => none

/-- `replace_all` with the empty replacement for pass 1: successive non-overlapping
leftmost matches of `\s*\d*>&\d*` are removed.  (`(c :: rest).drop n = rest.drop (n - 1)`
for the `n ≥ 1` that any match consumes.) -/
def replaceAllAmpF : Nat → List Char → List Char
  | _, [] => []
  | 0, l => l
  | fuel + 1, c :: rest =>
    match matchAmp (c :: rest) with
    | some n => replaceAllAmpF fuel (rest.drop (n - 1))
    | none => c :: replaceAllAmpF fuel rest

/-- `replace_all` of pass 1, supplying the scan with its length as fuel (each step
consumes at least one character, so the zero-fuel case is never reached). -/
def replaceAllAmp (l : List Char) : List Char :=
  replaceAllAmpF l.length l

/-- `replace_all` with the empty replacement for pass 2 (`\s*\d*>>?\s*\S+`). -/
def replaceAllOutF : Nat → List Char → List Char
  | _, [] => []
  | 0, l => l
  | fuel + 1, c :: rest =>
    match matchOut (c :: rest) with
    | some n => replaceAllOutF fuel (rest.drop (n - 1))
    | none => c :: replaceAllOutF fuel rest

/-- `replace_all` of pass 2, with the list length as fuel as in `replaceAllAmp`. -/
def replaceAllOut (l : List Char) : List Char :=
  replaceAllOutF l.length l

/-- `strip_redirections` (src/permission.rs:175): trim, strip `N>&M` forms, strip
`>`/`>>` redirections with targets, and (intended but inert, see above) `<`
redirections; finally trim again.  Here-document openers `<<` contain no `>` and are
untouched by the two effective passes. -/
def stripChars (l : List Char) : List Char :=
  trimChars (replaceAllOut (replaceAllAmp (trimChars l)))

/-- `strip_redirections` on `String`. -/
def strip_redirections (s : String) : String :=
  String.mk (stripChars s.data)

/-! ## `split_command_segments` (src/permission.rs, lines 97–172) -/

/-- Trim the accumulated segment, strip redirections, and append it to the segment
list unless it is empty (the `push` sites of the Rust loop, lines 128–131, 138–141,
149–152, 162–165). -/
def pushSeg (cur : List Char) (segs : List (List Char)) : List (List Char) :=
  let t := stripChars (trimChars cur)
  if t.isEmpty then segs else segs ++ [t]

/-- The character scan of `split_command_segments`: `inS` and `inD` are the
single- and double-quote states, `cur` the segment being accumulated, `segs` the
completed segments.  A backslash inside either quote state copies the next character
verbatim; `|` (also consuming a second `|`), `&&` and `;` are boundaries only outside
both quote states; a standalone `&` is pushed into the current segment.  The
one-character case carries the lookahead `peek() == None` outcomes, with the final
flush of the loop fused in (flushing the emptied segment after a trailing boundary
adds nothing). -/
def splitGo : List Char → Bool → Bool → List Char → List (List Char) → List (List Char)
  | [], _, _, cur, segs => pushSeg cur segs
  | [c], inS, inD, cur, segs =>
    if c == '\'' && !inD then pushSeg (cur ++ [c]) segs
    else if c == '"' && !inS then pushSeg (cur ++ [c]) segs
    else if c == '\\' && (inD || inS) then pushSeg (cur ++ [c]) segs
    else if c == '|' && !inS && !inD then pushSeg [] (pushSeg cur segs)
    else if c == '&' && !inS && !inD then pushSeg (cur ++ [c]) segs
    else if c == ';' && !inS && !inD then pushSeg [] (pushSeg cur segs)
    else pushSeg (cur ++ [c]) segs
  | c :: n :: rest, inS, inD, cur, segs =>
    if c == '\'' && !inD then splitGo (n :: rest) (!inS) inD (cur ++ [c]) segs
    else if c == '"' && !inS then splitGo (n :: rest) inS (!inD) (cur ++ [c]) segs
    else if c == '\\' && (inD || inS) then splitGo rest inS inD (cur ++ [c, n]) segs
    else if c == '|' && !inS && !inD then
      if n == '|' then splitGo rest inS inD [] (pushSeg cur segs)
      else splitGo (n :: rest) inS inD [] (pushSeg cur segs)
    else if c == '&' && !inS && !inD then
      if n == '&' then splitGo rest inS inD [] (pushSeg cur segs)
      else splitGo (n :: rest) inS inD (cur ++ [c]) segs
    else if c == ';' && !inS && !inD then splitGo (n :: rest) inS inD [] (pushSeg cur segs)
    else splitGo (n :: rest) inS inD (cur ++ [c]) segs

/-- `split_command_segments` (src/permission.rs:97): scan the command; if no nonempty
segment was produced, fall back to the whole (untrimmed) command as the single
segment. -/
def split_command_segments (command : String) : List String :=
  let segs := splitGo command.data false false [] []
  if segs.isEmpty then [command] else segs.map fun l => String.mk l

/-! ## Program-path normalization (src/permission.rs, lines 205–260) -/

/-- `extract_program_name` (src/permission.rs:247): last path component (after the
final `\` or `/`), with a case-insensitive `.exe` suffix stripped. -/
def extract_program_name (path : List Char) : List Char :=
  let name := (path.splitOnP fun c => c == '\\' || c == '/').getLastD path
  if ".exe".data <:+ name.map Char.toLower then name.take (name.length - 4) else name

/-- `normalize_program_path` (src/permission.rs:208): if the segment opens with a
quoted path, replace it by its program name; otherwise, if the first
space-delimited token contains a path separator, replace that token by its program
name; otherwise leave the (trimmed) segment unchanged. -/
def normChars (l : List Char) : List Char :=
  let s := trimChars l
  let quoted : Option (List Char) :=
    match s with
    | '"' :: t =>
      match t.findIdx? (fun c => c == '"') with
      | some i =>
        let prog := extract_program_name (t.take i)
        let rest := (s.drop (i + 2)).dropWhile isWS
        some (if rest.isEmpty then prog else prog ++ ' ' :: rest)
      | none => none
    | _ => none
  match quoted with
  | some r => r
  | none =>
    let fs := countWhile (fun c => !(c == ' ')) s
    let firstPart := s.take fs
    if firstPart.contains '\\' || firstPart.contains '/' then
      let prog := extract_program_name firstPart
      let rest := (s.drop fs).dropWhile isWS
      if rest.isEmpty then prog else prog ++ ' ' :: rest
    else s

/-- `normalize_program_path` on `String`. -/
def normalize_program_path (segment : String) : String :=
  String.mk (normChars segment.data)

/-- `str::trim` on `String`. -/
def strTrim (s : String) : String := String.mk (trimChars s.data)

/-- Substring containment, Rust `str::contains(&str)`. -/
def strContains (hay pat : String) : Bool := decide (pat.data <:+: hay.data)

/-- Rust `str::starts_with(&str)`. -/
def strStartsWith (s pre : String) : Bool := decide (pre.data <+: s.data)

/-- Rust `str::to_lowercase` (on the ASCII inputs compared here). -/
def strToLower (s : String) : String := String.mk (s.data.map Char.toLower)

/-- First occurrence of `sep` in a character list: the part before it and the part
after it. -/
def splitFirst (sep : List Char) : List Char → Option (List Char × List Char)
  | [] => if sep = [] then some ([], []) else none
  | c :: rest =>
    if sep <+: c :: rest then some ([], (c :: rest).drop sep.length)
    else (splitFirst sep rest).map fun p => (c :: p.1, p.2)

/-- Rust `str::split(sep)` as a list of chunks (separators removed, empty chunks
kept), with the list length as fuel (each split consumes the nonempty separator). -/
def splitOnCharsF (sep : List Char) : Nat → List Char → List (List Char)
  | 0, l => [l]
  | fuel + 1, l =>
    match splitFirst sep l with
    | none => [l]
    | some (b, a) => b :: splitOnCharsF sep fuel a

/-- `segment_matches_patterns` (src/permission.rs:263): normalize, then test the
configuration patterns in order; patterns that fail to compile are skipped. -/
def segment_matches_patterns (E : RegexEngine) (segment : String)
    (patterns : List String) : Bool :=
  let normalized := normalize_program_path segment
  patterns.any fun p => E.compileOk p && E.rmatch p normalized

/-! ## Inline-script parsing (src/permission.rs, lines 281–398)

The interpreter-recognition regexes are hard-coded in the source, so they are
implemented concretely below, following the leftmost/greedy matching of the
`regex` crate (with the backtracking resolved: each optional piece here is
followed by a character class disjoint from it, except where noted). -/

/-- `{interpreter_kind, extracted_source_text}` (src/permission.rs:282). -/
structure InlineScript where
  script_type : String
  content : String
deriving Repr, DecidableEq

/-- Strip an exact prefix. -/
def dropExact (pat l : List Char) : Option (List Char) :=
  if pat <+: l then some (l.drop pat.length) else none

/-- Strip a prefix case-insensitively (ASCII). -/
def dropCI (pat l : List Char) : Option (List Char) :=
  if pat.map Char.toLower <+: (l.take pat.length).map Char.toLower then
    some (l.drop pat.length)
  else none

/-- One-or-more whitespace, `\s+`. -/
def dropWS1 (l : List Char) : Option (List Char) :=
  let w := countWhile isWS l
  if w = 0 then none else some (l.drop w)

/-- A quote character, `["']`. -/
def isQuote (c : Char) : Bool := c == '"' || c == '\''

/-- `["'](.*)["']` with `(?s)`: an opening quote, then everything up to the last
quote character of the string (the greedy `.*` backtracks to the final `["']`). -/
def quotedContent (l : List Char) : Option (List Char) :=
  match l with
  | q :: rest =>
    if isQuote q then
      match rest.reverse.findIdx? isQuote with
      | some j => some (rest.take (rest.length - 1 - j))
      | none => none
    else none
  | [] => none

/-- `["']?(.*)` with `(?s)`: the greedy optional quote is consumed if present, the
capture is everything after it. -/
def optQuotedContent (l : List Char) : List Char :=
  match l with
  | q :: rest => if isQuote q then rest else l
  | [] => l

/-- Word character, `\w` (ASCII). -/
def isWordChar (c : Char) : Bool := c.isAlphanum || c == '_'

/-- After the here-document delimiter of `parse_heredoc`, the pattern `\s*\n(.*)`:
the greedy `\s*` backtracks until the next character is a newline, so the match
consumes the whitespace run through its *last* newline; `none` if the run has no
newline. Returns the capture `(.*)`. -/
def afterDelimNewline (l : List Char) : Option (List Char) :=
  let run := l.take (countWhile isWS l)
  match run.reverse.findIdx? (fun c => c == '\n') with
  | some j => some (l.drop (run.length - j))
  | none => none

/-- Does `l` begin with `delim` followed by only (non-newline) whitespace up to the
end of the line — i.e. does `(?m)^delim\s*$` match at this position? -/
def delimLineAt (delim l : List Char) : Bool :=
  match dropExact delim l with
  | some r => (r.take (countWhile (fun c => !(c == '\n')) r)).all isWS
  | none => false

/-- Index of the first line start of `l` at which `(?m)^delim\s*$` matches
(`find` of the closing-delimiter regex of `parse_heredoc`). -/
def findDelim (delim : List Char) : List Char → Bool → Nat → Option Nat
  | l, atStart, idx =>
    if atStart && delimLineAt delim l then some idx
    else
      match l with
      | [] => none
      | c :: rest => findDelim delim rest (c == '\n') (idx + 1)

/-- `parse_heredoc` (src/permission.rs:288): match
`(?s)^(python3?|node)\s*<<\s*['"]?(\w+)['"]?\s*\n(.*)`, then locate the closing
delimiter line `(?m)^delim\s*$` inside the capture; the script content is the text
before it, trimmed.  `node` maps to script type `node`, the python interpreters to
`python`. -/
def parse_heredoc (command : String) : Option InlineScript := do
  let l := command.data
  let (ty, l) ←
    match dropExact "python".data l with
    | some r =>
      match r with
      | '3' :: r2 => some ("python", r2)
      | _ => some ("python", r)
    | none =>
      match dropExact "node".data l with
      | some r => some ("node", r)
      | none => none
  let l := l.drop (countWhile isWS l)
  let l ← dropExact "<<".data l
  let l := l.drop (countWhile isWS l)
  let l := match l with | q :: r => if isQuote q then r else l | [] => l
  let w := countWhile isWordChar l
  if w = 0 then none else
  let delim := l.take w
  let l := l.drop w
  let l := match l with | q :: r => if isQuote q then r else l | [] => l
  let rest ← afterDelimNewline l
  let p ← findDelim delim rest true 0
  some { script_type := ty, content := String.mk (trimChars (rest.take p)) }

/-- `parse_inline_script` (src/permission.rs:317): here-documents first, then the
flag-style forms — quoted and unquoted variants for `python -c`, `node -e`,
`powershell -Command|-c` (case-insensitive, optional `.exe`), `cmd /c`
(case-insensitive, optional `.exe`). -/
def parse_inline_script (command : String) : Option InlineScript :=
  match parse_heredoc command with
  | some s => some s
  | none =>
    let l := command.data
    let pyTail : Option (List Char) := do
      let r ←
        match dropExact "python".data l with
        | some r => some (match r with | '3' :: r2 => r2 | _ => r)
        | none => none
      let r ← dropWS1 r
      let r ← dropExact "-c".data r
      dropWS1 r
    let nodeTail : Option (List Char) := do
      let r ← dropExact "node".data l
      let r ← dropWS1 r
      let r ← dropExact "-e".data r
      dropWS1 r
    let psTail : Option (List Char) := do
      let r ← dropCI "powershell".data l
      let r := match dropCI ".exe".data r with | some r2 => r2 | none => r
      let r ← dropWS1 r
      let r ←
        match dropCI "-command".data r with
        | some r2 => some r2
        | none => dropCI "-c".data r
      dropWS1 r
    let cmdTail : Option (List Char) := do
      let r ← dropCI "cmd".data l
      let r := match dropCI ".exe".data r with | some r2 => r2 | none => r
      let r ← dropWS1 r
      let r ← dropCI "/c".data r
      dropWS1 r
    match pyTail with
    | some t =>
      match quotedContent t with
      | some c => some { script_type := "python", content := String.mk c }
      | none => some { script_type := "python", content := String.mk (optQuotedContent t) }
    | none =>
    match nodeTail with
    | some t =>
      match quotedContent t with
      | some c => some { script_type := "node", content := String.mk c }
      | none => some { script_type := "node", content := String.mk (optQuotedContent t) }
    | none =>
    match psTail with
    | some t =>
      match quotedContent t with
      | some c => some { script_type := "powershell", content := String.mk c }
      | none => some { script_type := "powershell", content := String.mk (optQuotedContent t) }
    | none =>
    match cmdTail with
    | some t =>
      match quotedContent t with
      | some c => some { script_type := "cmd", content := String.mk c }
      | none => some { script_type := "cmd", content := String.mk (optQuotedContent t) }
    | none => none

/-! ## Configuration (src/config.rs) and tool input (serde_json values) -/

/-- The fragment of `serde_json::Value` exercised by the permission checks: the
source only reads string-valued fields of the tool-input object. -/
inductive Json where
  | null : Json
  | str : String → Json
  | obj : List (String × Json) → Json

/-- `Value::get(key)` on an object (first binding wins), `None` otherwise. -/
def Json.get (j : Json) (key : String) : Option Json :=
  match j with
  | .obj fields => (fields.find? fun p => p.1 == key).map fun p => p.2
  | _ => none

/-- `Value::as_str`. -/
def Json.asStr : Json → Option String
  | .str s => some s
  | _ => none

/-- `AutoApproveConfig` (src/config.rs:46). -/
structure AutoApproveConfig where
  tools : List String
  bash_patterns : List String

/-- `AutoDenyConfig` (src/config.rs:54). -/
structure AutoDenyConfig where
  bash_patterns : List String
  protected_paths : List String

/-- `InlineScriptsConfig` (src/config.rs:62).  `dangerous_cmd_patterns` is the field
`is_inline_script_safe` (src/permission.rs:405) reads for `cmd` scripts; the struct
in src/config.rs omits it, so it is carried here as the extra list that function
requires, empty under the defaults. -/
structure InlineScriptsConfig where
  enabled : Bool
  dangerous_python_patterns : List String
  dangerous_node_patterns : List String
  dangerous_powershell_patterns : List String
  dangerous_cmd_patterns : List String

/-- `NotificationsConfig` (src/config.rs:91), restricted to the field the analyzer
reads. -/
structure NotificationsConfig where
  notify_on_text_response : Bool

/-- `Config` (src/config.rs:12), restricted to the components the embedded
functions read. -/
structure Config where
  auto_approve : AutoApproveConfig
  auto_deny : AutoDenyConfig
  inline_scripts : InlineScriptsConfig
  notifications : NotificationsConfig

/-- `default_config` (src/config.rs:165). -/
def default_config : Config where
  auto_approve :=
    { tools := ["Read", "Glob", "Grep", "WebFetch", "WebSearch", "Task", "TaskList",
                "TaskGet", "TaskCreate", "TaskUpdate"]
      bash_patterns :=
        ["^git\\s+(status|log|diff|branch|show|remote|fetch)", "^ls(\\s|$)", "^pwd$",
         "^echo\\s", "^cat\\s", "^head\\s", "^tail\\s",
         "^npm\\s+(list|ls|outdated|view|info|search)", "^node\\s+--version",
         "^python3?\\s+--version", "^pip3?\\s+(list|show|search)",
         "^docker\\s+(ps|images|inspect|logs)",
         "^gh\\s+(repo|pr|issue|release|run|workflow)\\s+(view|list|status|diff|checks)",
         "^gh\\s+api\\s", "^gh\\s+auth\\s+status", "^(whoami|hostname|date|uname|env)$"] }
  auto_deny :=
    { bash_patterns :=
        ["rm\\s+(-rf?|--recursive)?\\s*[/~]", "rm\\s+-rf?\\s+\\*", "git\\s+push.*--force",
         "git\\s+reset\\s+--hard", "curl.*\\|\\s*(ba)?sh", "wget.*\\|\\s*(ba)?sh",
         "sudo\\s+rm", "npm\\s+publish", "yarn\\s+publish", "mkfs\\.", "dd\\s+.*of=/dev",
         ">\\s*/etc/", "chmod\\s+(-R\\s+)?777\\s+/"]
      protected_paths :=
        ["^/etc/", "^/usr/", "^/bin/", "^/sbin/", "(?i)^C:\\\\Windows",
         "(?i)^C:\\\\Program Files"] }
  inline_scripts :=
    { enabled := true
      dangerous_python_patterns :=
        ["os\\.remove", "os\\.unlink", "os\\.rmdir", "os\\.system", "shutil\\.rmtree",
         "subprocess"]
      dangerous_node_patterns :=
        ["child_process", "fs\\.unlink", "fs\\.rmdir", "fs\\.rm\\(", "rimraf"]
      dangerous_powershell_patterns :=
        ["(?i)Remove-Item", "(?i)rm\\s+-r", "(?i)del\\s+-r", "(?i)Stop-Process",
         "(?i)Kill", "(?i)Format-Volume", "(?i)Clear-Disk", "(?i)Initialize-Disk",
         "(?i)Invoke-Expression", "(?i)iex\\s", "(?i)Start-Process.*-Verb\\s+RunAs",
         "(?i)Set-ExecutionPolicy", "(?i)Disable-", "(?i)Stop-Service",
         "(?i)Uninstall-"]
      dangerous_cmd_patterns := [] }
  notifications := { notify_on_text_response := true }

/-! ## Permission checks (src/permission.rs, lines 400–546) -/

/-- The pattern loop of `is_inline_script_safe` (src/permission.rs:409–417): the
script content is dangerous when any compiling pattern of the selected list
matches it, safe otherwise. -/
def dangerCheck (E : RegexEngine) (patterns : List String) (script : InlineScript) :
    Bool × String :=
  if patterns.any (fun p => E.compileOk p && E.rmatch p script.content) then
    (false, "dangerous " ++ script.script_type)
  else
    (true, "safe " ++ script.script_type)

/-- `is_inline_script_safe` (src/permission.rs:400): select the dangerous-pattern
list for the script's interpreter kind (unknown kinds are unsafe) and run the
pattern loop. -/
def is_inline_script_safe (E : RegexEngine) (cfg : Config) (script : InlineScript) :
    Bool × String :=
  match script.script_type with
  | "python" => dangerCheck E cfg.inline_scripts.dangerous_python_patterns script
  | "node" => dangerCheck E cfg.inline_scripts.dangerous_node_patterns script
  | "powershell" => dangerCheck E cfg.inline_scripts.dangerous_powershell_patterns script
  | "cmd" => dangerCheck E cfg.inline_scripts.dangerous_cmd_patterns script
  | _ => (false, "Unknown script type")

/-- The segment skip condition of the Tier-1b loop (src/permission.rs:445): an
empty or `cd`-only segment is treated as benign. -/
def isCdSkip (s : String) : Bool :=
  s == "" || s == "cd" || strStartsWith s "cd "

/-- The Tier-1b segment loop of `is_auto_approved` (src/permission.rs:443–476):
`reason` is the `approval_reason` accumulator.  A segment passes by matching an
allow pattern (setting the reason if still empty) or, when inline scripts are
enabled, by parsing as an inline script whose content is safe (overwriting the
reason); the first failing segment aborts with `none`. -/
def tier1bLoop (E : RegexEngine) (cfg : Config) : List String → String → Option String
  | [], reason => if reason == "" then none else some reason
  | seg :: rest, reason =>
    let s := strTrim seg
    if isCdSkip s then tier1bLoop E cfg rest reason
    else if segment_matches_patterns E s cfg.auto_approve.bash_patterns then
      tier1bLoop E cfg rest (if reason == "" then "safe pattern" else reason)
    else if cfg.inline_scripts.enabled then
      match parse_inline_script (normalize_program_path s) with
      | some script =>
        let res := is_inline_script_safe E cfg script
        if res.1 then tier1bLoop E cfg rest res.2 else none
      | none => none
    else none

/-- Tier 1b (src/permission.rs:432–482): split the trimmed command and run the
segment loop with an empty initial reason. -/
def tier1b (E : RegexEngine) (cfg : Config) (command : String) : Option String :=
  tier1bLoop E cfg (split_command_segments (strTrim command)) ""

/-- Whether one (already trimmed) segment individually passes Tier 1b: it matches
an allow pattern, or inline scripts are enabled and it parses (after path
normalization) as an inline script whose content is safe.  This is the per-segment
pass condition of the loop above, separated out for specification. -/
def segPasses (E : RegexEngine) (cfg : Config) (s : String) : Bool :=
  segment_matches_patterns E s cfg.auto_approve.bash_patterns ||
  (cfg.inline_scripts.enabled &&
    (match parse_inline_script (normalize_program_path s) with
     | some script => (is_inline_script_safe E cfg script).1
     | none => false))

/-- A configuration whose allow list and deny list share the literal pattern
`rm`: used to separate Tier-1 and Tier-2 precedence. -/
def cfgOverlap : Config where
  auto_approve := { tools := [], bash_patterns := ["rm"] }
  auto_deny := { bash_patterns := ["rm"], protected_paths := [] }
  inline_scripts :=
    { enabled := false, dangerous_python_patterns := [], dangerous_node_patterns := [],
      dangerous_powershell_patterns := [], dangerous_cmd_patterns := [] }
  notifications := { notify_on_text_response := true }

/-- A configuration with only the deny-list pattern `rm`. -/
def cfgDenyOnly : Config where
  auto_approve := { tools := [], bash_patterns := [] }
  auto_deny := { bash_patterns := ["rm"], protected_paths := [] }
  inline_scripts :=
    { enabled := false, dangerous_python_patterns := [], dangerous_node_patterns := [],
      dangerous_powershell_patterns := [], dangerous_cmd_patterns := [] }
  notifications := { notify_on_text_response := true }

/-- The read-only verb fragments accepted for `mcp__` tools (src/permission.rs:487). -/
def mcpSafePatterns : List String :=
  ["get", "list", "read", "fetch", "search", "find", "query", "view", "show",
   "describe", "inspect", "status", "health"]

/-- The destructive verb fragments denied for `mcp__` tools (src/permission.rs:536). -/
def mcpDangerousPatterns : List String :=
  ["delete", "remove", "destroy", "drop", "clear", "wipe", "purge", "erase",
   "reset", "truncate"]

/-- The lower-cased final `__`-separated fragment of an `mcp__` tool name
(src/permission.rs:486). -/
def mcpName (tool_name : String) : String :=
  strToLower (String.mk
    ((splitOnCharsF "__".data (tool_name.data.length + 1) tool_name.data).getLastD []))

/-- `is_auto_approved` (src/permission.rs:425): allow-listed tool, else the Tier-1b
shell-command check, else the read-only `mcp__` verb check. -/
def is_auto_approved (E : RegexEngine) (cfg : Config) (tool_name : String)
    (input : Json) : Option String :=
  if cfg.auto_approve.tools.contains tool_name then some "auto-approve tool"
  else
    let bashRes : Option String :=
      if tool_name == "Bash" then
        match (input.get "command").bind Json.asStr with
        | some command => tier1b E cfg command
        | none => none
      else none
    match bashRes with
    | some r => some r
    | none =>
      if strStartsWith tool_name "mcp__" then
        if mcpSafePatterns.any (fun p => strContains (mcpName tool_name) p) then
          some "read-only MCP"
        else none
      else none

/-- `is_auto_denied` (src/permission.rs:500): deny a shell command when *any*
segment matches a deny pattern; deny file-mutating tools on protected paths; deny
destructive `mcp__` verbs. -/
def is_auto_denied (E : RegexEngine) (cfg : Config) (tool_name : String)
    (input : Json) : Option String :=
  let bashRes : Option String :=
    if tool_name == "Bash" then
      match (input.get "command").bind Json.asStr with
      | some command =>
        if (split_command_segments command).any
            (fun seg => segment_matches_patterns E seg cfg.auto_deny.bash_patterns) then
          some "dangerous pattern"
        else none
      | none => none
    else none
  match bashRes with
  | some r => some r
  | none =>
    let fileRes : Option String :=
      if tool_name == "Write" || tool_name == "Edit" || tool_name == "NotebookEdit" then
        let file_path :=
          ((((input.get "file_path").or (input.get "path")).or
            (input.get "notebook_path")).bind Json.asStr).getD ""
        if cfg.auto_deny.protected_paths.any
            (fun p => E.compileOk p && E.rmatch p file_path) then
          some "protected path"
        else none
      else none
    match fileRes with
    | some r => some r
    | none =>
      if strStartsWith tool_name "mcp__" then
        if mcpDangerousPatterns.any (fun p => strContains (mcpName tool_name) p) then
          some "destructive MCP"
        else none
      else none

/-! ## The decision flow of `main` (src/main.rs, lines 610–683)

`main` reads stdin, parses the payload, then runs the three tiers in order; the
embedding takes the three tier results (the LLM tier performs an HTTP call, so its
outcome is a parameter) and records the exit code and the lines written to stdout
and stderr.  File-logging (`log_decision`, `log_prompt`) is out of scope. -/

/-- `HookSpecificOutput` (src/permission.rs:55). -/
structure HookSpecificOutput where
  hook_event_name : String
  permission_decision : String
  permission_decision_reason : String
deriving Repr, DecidableEq

/-- `HookResponse` (src/permission.rs:63). -/
structure HookResponse where
  hook_specific_output : HookSpecificOutput
  suppress_output : Bool
deriving Repr, DecidableEq

/-- `HookResponse::allow` (src/permission.rs:69). -/
def HookResponse.allow (reason : String) : HookResponse where
  hook_specific_output :=
    { hook_event_name := "PreToolUse"
      permission_decision := "allow"
      permission_decision_reason := reason }
  suppress_output := true

/-- `HookResponse::deny` (src/permission.rs:80). -/
def HookResponse.deny (reason : String) : HookResponse where
  hook_specific_output :=
    { hook_event_name := "PreToolUse"
      permission_decision := "deny"
      permission_decision_reason := reason }
  suppress_output := true

/-- Observable outcome of one `main` invocation: process exit code and the lines
written to stdout and stderr. -/
structure MainOutcome where
  exitCode : Nat
  stdoutLines : List String
  stderrLines : List String
deriving Repr, DecidableEq

/-- The tier dispatch of `main` (src/main.rs:643–683): Tier 1 allow exits 0 (stderr
note only when verbose, nothing on stdout); Tier 2 deny exits 2 with the reason on
stderr; an LLM verdict maps to exit 0 or exit 2 with the reason on stderr; otherwise
the prompt note goes to stderr and the process exits 0 with no output. -/
def mainDecide (approveRes denyRes : Option String) (llmRes : Option (String × String))
    (tool_name : String) (details : Option String) (verbose : Bool) : MainOutcome :=
  match approveRes with
  | some reason =>
    { exitCode := 0
      stdoutLines := []
      stderrLines :=
        if verbose then ["[permission-hook] ALLOW: " ++ tool_name ++ " - " ++ reason]
        else [] }
  | none =>
    match denyRes with
    | some reason =>
      { exitCode := 2
        stdoutLines := []
        stderrLines := ["[permission-hook] DENY: " ++ tool_name ++ " - " ++ reason] }
    | none =>
      match llmRes with
      | some (decision, reason) =>
        if decision == "allow" then
          { exitCode := 0, stdoutLines := [], stderrLines := [] }
        else
          { exitCode := 2, stdoutLines := [], stderrLines := [reason] }
      | none =>
        let detailStr := details.getD "no details"
        { exitCode := 0
          stdoutLines := []
          stderrLines :=
            ["[permission-hook] Prompting user for: " ++ tool_name ++
              " (" ++ detailStr ++ ")"] }

/-- One full policy evaluation of `main` on a parsed payload, with the tier
functions taken from src/permission.rs (the library revision of the duplicated
policy code, as referenced by the specification). -/
def mainRun (E : RegexEngine) (cfg : Config) (tool_name : String) (input : Json)
    (llmRes : Option (String × String)) (details : Option String) (verbose : Bool) :
    MainOutcome :=
  mainDecide (is_auto_approved E cfg tool_name input) (is_auto_denied E cfg tool_name input)
    llmRes tool_name details verbose

/-! ## Transcript status analyzer (src/analyzer.rs, src/jsonl.rs)

`analyze_transcript` first parses the JSONL file; the embedding models the
remainder of the function (src/analyzer.rs:89–177) on the already-parsed message
list.  The `input` field of content blocks and message timestamps are not read by
the analyzer and are omitted from the message model. -/

/-- `Status` (src/analyzer.rs:8). -/
inductive Status where
  | TaskComplete
  | ReviewComplete
  | Question
  | PlanReady
  | SessionLimitReached
  | ApiError
  | Unknown
deriving Repr, DecidableEq

/-- `Content` (src/jsonl.rs:30), restricted to the fields the analyzer reads. -/
structure Content where
  content_type : String
  text : String
  name : String
deriving Repr, DecidableEq

/-- `MessageContent` (src/jsonl.rs:21). -/
structure MessageContent where
  role : String
  content : List Content
deriving Repr, DecidableEq

/-- `Message` (src/jsonl.rs:10). -/
structure Message where
  msg_type : String
  message : MessageContent
deriving Repr, DecidableEq

/-- `Message::is_user` (src/jsonl.rs:43). -/
def Message.is_user (m : Message) : Bool :=
  m.msg_type == "user" || m.message.role == "user"

/-- `Message::is_assistant` (src/jsonl.rs:48). -/
def Message.is_assistant (m : Message) : Bool :=
  m.msg_type == "assistant" || m.message.role == "assistant"

/-- `Message::get_tools` (src/jsonl.rs:53). -/
def Message.get_tools (m : Message) : List String :=
  (m.message.content.filter fun c => c.content_type == "tool_use").map fun c => c.name

/-- `Message::get_text` (src/jsonl.rs:62): the text blocks joined with newlines. -/
def Message.get_text (m : Message) : String :=
  String.intercalate "\n"
    ((m.message.content.filter fun c => c.content_type == "text").map fun c => c.text)

/-- The index of the last user message, `rposition` defaulting to 0
(src/jsonl.rs:116). -/
def rpositionUser (messages : List Message) : Nat :=
  match messages.reverse.findIdx? (fun m => m.is_user) with
  | some j => messages.length - 1 - j
  | none => 0

/-- `get_recent_assistant_messages` (src/jsonl.rs:114): the assistant messages at
or after the last user message, capped at `max_count`. -/
def get_recent_assistant_messages (messages : List Message) (max_count : Nat) :
    List Message :=
  (((messages.drop (rpositionUser messages)).filter fun m => m.is_assistant).take max_count)

/-- `ACTIVE_TOOLS` (src/analyzer.rs:39). -/
def ACTIVE_TOOLS : List String :=
  ["Write", "Edit", "Bash", "NotebookEdit", "SlashCommand", "KillShell", "Task",
   "MultiEdit"]

/-- `READ_LIKE_TOOLS` (src/analyzer.rs:44). -/
def READ_LIKE_TOOLS : List String := ["Read", "Grep", "Glob"]

/-- `is_active_tool` (src/analyzer.rs:53). -/
def is_active_tool (tool : String) : Bool := ACTIVE_TOOLS.contains tool

/-- `is_read_like_tool` (src/analyzer.rs:58). -/
def is_read_like_tool (tool : String) : Bool := READ_LIKE_TOOLS.contains tool

/-- `check_session_limit` (src/analyzer.rs:72). -/
def check_session_limit (text : String) : Bool :=
  let tl := strToLower text
  strContains tl "session limit reached" || strContains tl "session limit has been reached"

/-- `check_api_error` (src/analyzer.rs:79). -/
def check_api_error (text : String) : Bool :=
  let tl := strToLower text
  strContains tl "api error: 401" &&
    (strContains tl "run /login" || strContains tl "please run /login")

/-- The `all_tools` accumulator of `analyze_transcript` (src/analyzer.rs:118–122):
all tool names of the 15-message window, in order. -/
def windowTools (messages : List Message) : List String :=
  ((get_recent_assistant_messages messages 15).map fun m => m.get_tools).flatten

/-- The `total_text_length` accumulator (src/analyzer.rs:119–123); Rust
`String::len` counts UTF-8 bytes. -/
def windowTextLength (messages : List Message) : Nat :=
  ((get_recent_assistant_messages messages 15).map fun m => m.get_text.utf8ByteSize).sum

/-- `analyze_transcript` after transcript parsing (src/analyzer.rs:89–177): the
fixed-priority decision table over the assistant-message window. -/
def analyze_messages (messages : List Message) (cfg : Config) : Status :=
  if messages.isEmpty then .Unknown
  else
    let recent := get_recent_assistant_messages messages 15
    if recent.isEmpty then .Unknown
    else
      let last3 := recent.reverse.take 3
      if last3.any (fun m => check_session_limit m.get_text) then .SessionLimitReached
      else if last3.any (fun m => check_api_error m.get_text) then .ApiError
      else
        let all_tools := windowTools messages
        let total_text_length := windowTextLength messages
        if all_tools.isEmpty then
          if cfg.notifications.notify_on_text_response && total_text_length > 0 then
            .TaskComplete
          else .Unknown
        else
          let last_tool := (all_tools.getLast?).getD ""
          if last_tool == "ExitPlanMode" then .PlanReady
          else if last_tool == "AskUserQuestion" then .Question
          else if all_tools.contains "ExitPlanMode" &&
              decide (all_tools.findIdx (fun t => t == "ExitPlanMode") < all_tools.length - 1) then
            .TaskComplete
          else
            let has_active := all_tools.any is_active_tool
            if !has_active && all_tools.any is_read_like_tool &&
                decide (total_text_length > 200) then
              .ReviewComplete
            else if is_active_tool last_tool then .TaskComplete
            else if !all_tools.isEmpty then .TaskComplete
            else .Unknown

/-! ## Lease acquisition (src/dedup.rs, `acquire_lock`, lines 56–88)

The shared mutable resource is the lease file, modelled by its modification time
(`Option Int`, `none` when absent).  `acquire_lock` is a sequence of three
filesystem steps between which concurrently scheduled invocations interleave:

* `check` — `exists()` + `file_mtime()` + freshness comparison (collapsed into one
  atomic read: the collapse only removes interleavings, and the race exhibited
  below already occurs under it; the `file_mtime`-failure path, which skips to
  creation, is subsumed);
* `del` — `remove_file` of a stale lease (result ignored);
* `create` — the atomic `create_new` that either creates the file (returning
  `true`) or fails with `AlreadyExists` (returning `false`).

A schedule is a list of `(which invocation, current wall-clock second)` entries. -/

/-- Program counter of one `acquire_lock` invocation. -/
inductive LeasePc where
  | check
  | del
  | create
  | done : Bool → LeasePc
deriving Repr, DecidableEq

/-- Shared lease file plus the two invocations' program counters. -/
structure LeaseState where
  file : Option Int
  pA : LeasePc
  pB : LeasePc
deriving Repr, DecidableEq

/-- One atomic step of `acquire_lock` (src/dedup.rs:56–88) against the lease file
at wall-clock time `now`: the freshness threshold is 2 seconds. -/
def leaseStepProc (file : Option Int) (pc : LeasePc) (now : Int) :
    Option Int × LeasePc :=
  match pc with
  | .check =>
    match file with
    | none => (none, .create)
    | some t => if now - t < 2 then (some t, .done false) else (some t, .del)
  | .del => (none, .create)
  | .create =>
    match file with
    | none => (some now, .done true)
    | some t => (some t, .done false)
  | .done b => (file, .done b)

/-- Scheduler step: `who = true` steps invocation A, else B. -/
def leaseStep (s : LeaseState) (who : Bool) (now : Int) : LeaseState :=
  if who then
    let r := leaseStepProc s.file s.pA now
    { file := r.1, pA := r.2, pB := s.pB }
  else
    let r := leaseStepProc s.file s.pB now
    { file := r.1, pA := s.pA, pB := r.2 }

/-- Run a schedule of interleaved steps. -/
def leaseRun (s : LeaseState) : List (Bool × Int) → LeaseState
  | [] => s
  | (who, now) :: rest => leaseRun (leaseStep s who now) rest

/-- `acquire_lock` run to completion by a single invocation with no interleaving
(src/dedup.rs:56–88): returns the result and the resulting lease file.  A fresh
lease (age under 2 seconds) is a duplicate; a stale lease is deleted and the file
re-created with the current time. -/
def acquireSeq (file : Option Int) (now : Int) : Bool × Option Int :=
  match file with
  | some t => if now - t < 2 then (false, some t) else (true, some now)
  | none => (true, some now)

/-! ## Circuit breaker and webhook retry loop (src/webhook.rs)

`Instant` values are modelled as `Int` seconds passed explicitly; the HTTP
transport is externalized as an oracle `succ : Nat → Bool` giving the outcome of
each attempt, and `now : Nat → Int` gives the wall-clock time of each attempt.
`send_webhook` is modelled past its configuration guards (webhook enabled,
non-empty URL), with the rate limiter's `try_acquire` outcome a parameter (its
token arithmetic is floating-point) and `maxAttempts` the computed
`retry_max_attempts.max(1)`. -/

/-- `CircuitBreaker` (src/webhook.rs:31). -/
structure CircuitBreaker where
  failure_count : Nat
  last_failure : Option Int
  is_open : Bool
  threshold : Nat
  recovery_timeout : Int
deriving Repr, DecidableEq

/-- `CircuitBreaker::new` (src/webhook.rs:40). -/
def CircuitBreaker.new (threshold : Nat) (recovery_timeout_secs : Int) : CircuitBreaker :=
  { failure_count := 0, last_failure := none, is_open := false,
    threshold := threshold, recovery_timeout := recovery_timeout_secs }

/-- `CircuitBreaker::is_open(&mut self)` (src/webhook.rs:51): reports whether the
circuit blocks requests, closing it (and resetting the counter) when
`recovery_timeout` has elapsed since the last failure. -/
def CircuitBreaker.isOpenCheck (cb : CircuitBreaker) (now : Int) :
    Bool × CircuitBreaker :=
  if !cb.is_open then (false, cb)
  else
    match cb.last_failure with
    | some last =>
      if cb.recovery_timeout ≤ now - last then
        (false, { cb with is_open := false, failure_count := 0 })
      else (true, cb)
    | none => (true, cb)

/-- `CircuitBreaker::record_success` (src/webhook.rs:69). -/
def CircuitBreaker.record_success (cb : CircuitBreaker) : CircuitBreaker :=
  { cb with failure_count := 0, is_open := false }

/-- `CircuitBreaker::record_failure` (src/webhook.rs:75). -/
def CircuitBreaker.record_failure (cb : CircuitBreaker) (now : Int) : CircuitBreaker :=
  let fc := cb.failure_count + 1
  { cb with
    failure_count := fc
    last_failure := some now
    is_open := if cb.threshold ≤ fc then true else cb.is_open }

/-- Result of one `send_webhook` call: overall success, whether the entry
admission check rejected the call, the breaker state afterwards, and — one entry
per delivery attempt actually handed to the transport — the breaker's `is_open`
flag at the moment that attempt was sent. -/
structure WebhookResult where
  ok : Bool
  rejectedByBreaker : Bool
  cb : CircuitBreaker
  sendsOpenFlags : List Bool
deriving Repr, DecidableEq

/-- The retry loop of `send_webhook` (src/webhook.rs:314–341): attempts
`attempt = 0, 1, …` up to `max_attempts`, sleeping between attempts; every
iteration posts the payload — the loop body never consults the breaker — and each
failure is recorded to it; a successful response records success and returns.
`remaining` counts the iterations left (`max_attempts - attempt`), making the
recursion structural. -/
def retryLoop (succ : Nat → Bool) (now : Nat → Int) :
    Nat → Nat → CircuitBreaker → List Bool → WebhookResult
  | _, 0, cb, trace =>
    { ok := false, rejectedByBreaker := false, cb := cb, sendsOpenFlags := trace }
  | attempt, remaining + 1, cb, trace =>
    let trace := trace ++ [cb.is_open]
    if succ attempt then
      { ok := true, rejectedByBreaker := false, cb := cb.record_success,
        sendsOpenFlags := trace }
    else
      retryLoop succ now (attempt + 1) remaining (cb.record_failure (now attempt)) trace

/-- `send_webhook` (src/webhook.rs:269): breaker admission at entry, then rate
limiter admission, then the retry loop. -/
def send_webhook (cb : CircuitBreaker) (entryNow : Int) (rateOk : Bool)
    (succ : Nat → Bool) (now : Nat → Int) (maxAttempts : Nat) : WebhookResult :=
  let r := cb.isOpenCheck entryNow
  if r.1 then
    { ok := false, rejectedByBreaker := true, cb := r.2, sendsOpenFlags := [] }
  else if !rateOk then
    { ok := false, rejectedByBreaker := false, cb := r.2, sendsOpenFlags := [] }
  else retryLoop succ now 0 maxAttempts r.2 []

/-! ## Concrete fixtures used by witnesses and counterexamples -/

/-- A user request message. -/
def demoUserMsg : Message :=
  { msg_type := "user", message := { role := "user", content :=
      [{ content_type := "text", text := "Review my code", name := "" }] } }

/-- An assistant message that used `Read, Read, Grep` and produced 250 characters
of text (spec scenario 4). -/
def demoReviewMsg : Message :=
  { msg_type := "assistant", message := { role := "assistant", content :=
      [{ content_type := "tool_use", text := "", name := "Read" },
       { content_type := "tool_use", text := "", name := "Read" },
       { content_type := "tool_use", text := "", name := "Grep" },
       { content_type := "text", text := String.mk (List.replicate 250 'a'), name := "" }] } }

/-- The same assistant message with an `Edit` tool call added mid-window
(spec scenario 5). -/
def demoEditMsg : Message :=
  { msg_type := "assistant", message := { role := "assistant", content :=
      [{ content_type := "tool_use", text := "", name := "Read" },
       { content_type := "tool_use", text := "", name := "Edit" },
       { content_type := "tool_use", text := "", name := "Grep" },
       { content_type := "text", text := String.mk (List.replicate 250 'a'), name := "" }] } }

/-- Review-shaped transcript. -/
def demoReviewTranscript : List Message := [demoUserMsg, demoReviewMsg]

/-- The same transcript with an active tool added in the window. -/
def demoEditTranscript : List Message := [demoUserMsg, demoEditMsg]

/-- An interleaving of two `acquire_lock` invocations against a stale lease
(created at time 0, both invocations running at time 10): both check, then A
deletes and creates, then B deletes A's fresh lease and creates. -/
def raceTrace : List (Bool × Int) :=
  [(true, 10), (false, 10), (true, 10), (true, 10), (false, 10), (false, 10)]

/-!
# Theorems

One theorem per claim (with counterexamples and witnesses where required),
following the order C1–C10 of the claims file after the supporting lemmas.
-/

/-! ### Supporting lemmas for the segmentation claims -/

/-- A single quote toggles the single-quote state (when not inside double quotes)
and is copied into the current segment. -/
theorem splitGo_squote (b : Bool) (l cur : List Char) (segs : List (List Char)) :
    splitGo ('\'' :: l) b false cur segs = splitGo l (!b) false (cur ++ ['\'']) segs := by
  cases l <;> simp [splitGo]

/-- A double quote toggles the double-quote state (when not inside single quotes)
and is copied into the current segment. -/
theorem splitGo_dquote (b : Bool) (l cur : List Char) (segs : List (List Char)) :
    splitGo ('"' :: l) false b cur segs = splitGo l false (!b) (cur ++ ['"']) segs := by
  cases l <;> simp [splitGo]

/-- Scanning inside single quotes: characters other than `'` and `\` — control
operators included — are copied into the current segment without completing any
segment, leaving the quote state untouched. -/
theorem splitGo_single_scan :
    ∀ (p : List Char), (∀ c ∈ p, c ≠ '\'' ∧ c ≠ '\\') →
      ∀ (v cur : List Char) (segs : List (List Char)),
        splitGo (p ++ '\'' :: v) true false cur segs
          = splitGo ('\'' :: v) true false (cur ++ p) segs := by
  intro p
  induction p with
  | nil => intro _ v cur segs; simp
  | cons c p ih =>
    intro hp v cur segs
    have hc := hp c (by simp)
    have h1 : (c == '\'') = false := by simp [hc.1]
    have h2 : (c == '\\') = false := by simp [hc.2]
    obtain ⟨n, rest, hq⟩ : ∃ n rest, p ++ '\'' :: v = n :: rest := by
      cases hpv : p ++ '\'' :: v with
      | nil => exact absurd hpv (by simp)
      | cons n rest => exact ⟨n, rest, rfl⟩
    have step : splitGo (c :: n :: rest) true false cur segs
        = splitGo (n :: rest) true false (cur ++ [c]) segs := by
      simp [splitGo, h1, h2]
    calc splitGo ((c :: p) ++ '\'' :: v) true false cur segs
        = splitGo (c :: n :: rest) true false cur segs := by rw [List.cons_append, hq]
      _ = splitGo (n :: rest) true false (cur ++ [c]) segs := step
      _ = splitGo (p ++ '\'' :: v) true false (cur ++ [c]) segs := by rw [hq]
      _ = splitGo ('\'' :: v) true false ((cur ++ [c]) ++ p) segs :=
          ih (fun x hx => hp x (by simp [hx])) v (cur ++ [c]) segs
      _ = splitGo ('\'' :: v) true false (cur ++ c :: p) segs := by simp

/-- Scanning inside double quotes: characters other than `"` and `\` are copied
into the current segment without completing any segment. -/
theorem splitGo_double_scan :
    ∀ (p : List Char), (∀ c ∈ p, c ≠ '"' ∧ c ≠ '\\') →
      ∀ (v cur : List Char) (segs : List (List Char)),
        splitGo (p ++ '"' :: v) false true cur segs
          = splitGo ('"' :: v) false true (cur ++ p) segs := by
  intro p
  induction p with
  | nil => intro _ v cur segs; simp
  | cons c p ih =>
    intro hp v cur segs
    have hc := hp c (by simp)
    have h1 : (c == '"') = false := by simp [hc.1]
    have h2 : (c == '\\') = false := by simp [hc.2]
    obtain ⟨n, rest, hq⟩ : ∃ n rest, p ++ '"' :: v = n :: rest := by
      cases hpv : p ++ '"' :: v with
      | nil => exact absurd hpv (by simp)
      | cons n rest => exact ⟨n, rest, rfl⟩
    have step : splitGo (c :: n :: rest) false true cur segs
        = splitGo (n :: rest) false true (cur ++ [c]) segs := by
      simp [splitGo, h1, h2]
    calc splitGo ((c :: p) ++ '"' :: v) false true cur segs
        = splitGo (c :: n :: rest) false true cur segs := by rw [List.cons_append, hq]
      _ = splitGo (n :: rest) false true (cur ++ [c]) segs := step
      _ = splitGo (p ++ '"' :: v) false true (cur ++ [c]) segs := by rw [hq]
      _ = splitGo ('"' :: v) false true ((cur ++ [c]) ++ p) segs :=
          ih (fun x hx => hp x (by simp [hx])) v (cur ++ [c]) segs
      _ = splitGo ('"' :: v) false true (cur ++ c :: p) segs := by simp

/-! ### C3 — quoting invariant of command splitting -/

/-- C3: for every input, a `|`, `&` or `;` (indeed any character) lying between a
matched pair of single or double quotes never produces a segment boundary: from any
scanner configuration outside quotes, the whole quoted block — payload control
operators included — is consumed into the current segment, the completed-segment
list `segs` unchanged.  The payload may not contain the delimiting quote itself or
a backslash (which would escape the closing quote). -/
theorem c3_quoted_payload_never_splits (q : Char) (p v cur : List Char)
    (segs : List (List Char)) (hq : q = '\'' ∨ q = '"')
    (hp : ∀ c ∈ p, c ≠ q ∧ c ≠ '\\') :
    splitGo (q :: (p ++ q :: v)) false false cur segs
      = splitGo v false false (cur ++ q :: (p ++ [q])) segs := by
  rcases hq with hq | hq <;> subst hq
  · rw [splitGo_squote false (p ++ '\'' :: v) cur segs]
    simp only [Bool.not_false]
    rw [splitGo_single_scan p hp v (cur ++ ['\'']) segs,
      splitGo_squote true v ((cur ++ ['\'']) ++ p) segs]
    simp
  · rw [splitGo_dquote false (p ++ '"' :: v) cur segs]
    simp only [Bool.not_false]
    rw [splitGo_double_scan p hp v (cur ++ ['"']) segs,
      splitGo_dquote true v ((cur ++ ['"']) ++ p) segs]
    simp

/-- Witness for C3: the single-quoted payload `a|b;c&d`, full of control
operators, is scanned as one block — and, end to end, the spec's example command
with a quoted `\|` splits into exactly the two expected segments. -/
theorem c3_witness :
    splitGo ('\'' :: ("a|b;c&d".data ++ '\'' :: " X".data)) false false [] []
      = splitGo " X".data false false ('\'' :: ("a|b;c&d".data ++ ['\''])) []
    ∧ split_command_segments "grep -n \"a\\|b\" f.rs | head -5"
      = ["grep -n \"a\\|b\" f.rs", "head -5"] := by
  constructor
  · exact c3_quoted_payload_never_splits '\'' "a|b;c&d".data " X".data [] []
      (Or.inl rfl) (by decide)
  · decide

/-! ### C4 — a standalone `&` is not a segment boundary -/

/-- C4 counterexample: on `"sleep 5 & echo hi"` the splitter returns the single
segment `"sleep 5 & echo hi"` — the standalone background `&` outside quotes does
*not* separate the text before it from the text after it. -/
theorem c4_counterexample :
    split_command_segments "sleep 5 & echo hi" = ["sleep 5 & echo hi"]
    ∧ split_command_segments "sleep 5 & echo hi" ≠ ["sleep 5", "echo hi"] := by
  decide

/-- C4 (amended): a standalone `&` outside both quote states (one not followed by
a second `&`) is copied verbatim into the current segment and completes no
segment; only `&&` is a boundary. -/
theorem c4_standalone_amp_kept (rest cur : List Char) (segs : List (List Char))
    (h : rest.head? ≠ some '&') :
    splitGo ('&' :: rest) false false cur segs
      = splitGo rest false false (cur ++ ['&']) segs := by
  cases rest with
  | nil => simp [splitGo]
  | cons n rest2 =>
    have hn : (n == '&') = false := by
      simp only [List.head?_cons, ne_eq, Option.some.injEq] at h
      simp [h]
    cases rest2 <;> simp [splitGo, hn]

/-- Witness for C4 (amended): the standalone `&` of `"sleep 5 & echo hi"` at
scanner position 8. -/
theorem c4_standalone_amp_kept_witness :
    splitGo ('&' :: " echo hi".data) false false "sleep 5 ".data []
      = splitGo " echo hi".data false false ("sleep 5 ".data ++ ['&']) [] :=
  c4_standalone_amp_kept " echo hi".data "sleep 5 ".data [] (by decide)

/-! ### C5 — redirection stripping -/

/-- C5: `>`/`>>`/`N>&M` redirections are stripped and here-document openers kept,
but the single-`<` input redirection is *not* stripped: the source's pattern
`\s*<(?!<)\s*\S+` uses look-ahead, which the `regex` crate rejects, so
`Regex::new` fails and the pass is silently skipped — `"sort < input.txt"` is
returned unchanged, where the specification requires `"sort"`. -/
theorem c5_input_redirection_not_stripped :
    strip_redirections "sort < input.txt" = "sort < input.txt"
    ∧ strip_redirections "echo hi > out.txt 2>&1" = "echo hi"
    ∧ strip_redirections "cmd >> log.txt" = "cmd"
    ∧ strip_redirections "python << 'PYEOF'" = "python << 'PYEOF'"
    ∧ strip_redirections "sort < input.txt" ≠ "sort" := by
  decide

/-! ### C1 — deny patterns versus the tier order of `main` -/

/-- C1 counterexample: with the configuration `cfgOverlap` (whose allow and deny
lists share the literal pattern `rm`) and the Bash command `rm -rf /`, a segment
*does* match an auto-deny pattern and `is_auto_denied` *would* return the denial —
but `main` consults Tier 1 first, the command also matches the allow pattern, and
the process exits 0 with empty stderr, not 2: the claim's universally quantified
guarantee fails. -/
theorem c1_counterexample :
    (split_command_segments "rm -rf /").any
        (fun seg => segment_matches_patterns litEngine seg cfgOverlap.auto_deny.bash_patterns)
      = true
    ∧ is_auto_denied litEngine cfgOverlap "Bash" (Json.obj [("command", Json.str "rm -rf /")])
        = some "dangerous pattern"
    ∧ mainRun litEngine cfgOverlap "Bash" (Json.obj [("command", Json.str "rm -rf /")])
        none none false
      = { exitCode := 0, stdoutLines := [], stderrLines := [] } := by
  decide

/-- C1 (amended): when Tier-1 auto-approve does *not* fire, a Bash command one of
whose CommandSegments matches an auto-deny pattern is denied: `is_auto_denied`
returns the denial and the process exits with code 2, writing the denial reason to
stderr and nothing to stdout. -/
theorem c1_deny_after_no_approve (E : RegexEngine) (cfg : Config) (cmd : String)
    (llmRes : Option (String × String)) (details : Option String) (verbose : Bool)
    (h1 : is_auto_approved E cfg "Bash" (Json.obj [("command", Json.str cmd)]) = none)
    (h2 : ∃ seg ∈ split_command_segments cmd,
            segment_matches_patterns E seg cfg.auto_deny.bash_patterns = true) :
    is_auto_denied E cfg "Bash" (Json.obj [("command", Json.str cmd)])
        = some "dangerous pattern"
    ∧ mainRun E cfg "Bash" (Json.obj [("command", Json.str cmd)]) llmRes details verbose
        = { exitCode := 2, stdoutLines := []
            stderrLines := ["[permission-hook] DENY: Bash - dangerous pattern"] } := by
  have hany : (split_command_segments cmd).any
      (fun seg => segment_matches_patterns E seg cfg.auto_deny.bash_patterns) = true := by
    rw [List.any_eq_true]
    obtain ⟨s, hs, hm⟩ := h2
    exact ⟨s, hs, hm⟩
  have hden : is_auto_denied E cfg "Bash" (Json.obj [("command", Json.str cmd)])
      = some "dangerous pattern" := by
    simp [is_auto_denied, Json.get, Json.asStr, List.find?, hany]
  refine ⟨hden, ?_⟩
  unfold mainRun mainDecide
  rw [h1, hden]
  rfl

/-- Witness for C1 (amended): under the deny-only configuration, `rm -rf /` is
denied with exit code 2, the reason on stderr, and an empty stdout. -/
theorem c1_deny_after_no_approve_witness :
    is_auto_denied litEngine cfgDenyOnly "Bash" (Json.obj [("command", Json.str "rm -rf /")])
        = some "dangerous pattern"
    ∧ mainRun litEngine cfgDenyOnly "Bash" (Json.obj [("command", Json.str "rm -rf /")])
        none none false
      = { exitCode := 2, stdoutLines := []
          stderrLines := ["[permission-hook] DENY: Bash - dangerous pattern"] } :=
  c1_deny_after_no_approve litEngine cfgDenyOnly "rm -rf /" none none false
    (by decide) (by decide)

/-! ### C2 — the Tier-1b all-segments-pass rule -/

/-- C2 counterexample: the command `cd /tmp` consists of a single `cd`-only
segment, so every non-`cd` segment passes vacuously — yet Tier 1b does not return
Allow: the approval reason stays empty and `is_auto_approved` yields `none`. -/
theorem c2_counterexample :
    is_auto_approved litEngine default_config "Bash" (Json.obj [("command", Json.str "cd /tmp")])
        = none
    ∧ tier1b litEngine default_config "cd /tmp" = none
    ∧ split_command_segments (strTrim "cd /tmp") = ["cd /tmp"]
    ∧ isCdSkip (strTrim "cd /tmp") = true := by
  decide

/-- A string of the form `safe <kind>` is nonempty. -/
theorem safe_reason_ne_empty (t : String) : "safe " ++ t ≠ "" := by
  intro h
  have hl := congrArg String.length h
  rw [String.length_append] at hl
  have h5 : ("safe " : String).length = 5 := rfl
  have h0 : ("" : String).length = 0 := rfl
  omega

/-- When the pattern loop reports safe, the reported reason is nonempty. -/
theorem dangerCheck_snd_ne (E : RegexEngine) (ps : List String) (sc : InlineScript)
    (h : (dangerCheck E ps sc).1 = true) : (dangerCheck E ps sc).2 ≠ "" := by
  unfold dangerCheck at h ⊢
  by_cases hc : (ps.any fun p => E.compileOk p && E.rmatch p sc.content) = true
  · rw [if_pos hc] at h
    exact absurd h (by simp)
  · rw [if_neg hc]
    exact safe_reason_ne_empty sc.script_type

/-- When an inline script is reported safe, the reported reason is nonempty. -/
theorem is_inline_script_safe_snd_ne (E : RegexEngine) (cfg : Config)
    (sc : InlineScript) (h : (is_inline_script_safe E cfg sc).1 = true) :
    (is_inline_script_safe E cfg sc).2 ≠ "" := by
  revert h
  unfold is_inline_script_safe
  split
  · exact fun h => dangerCheck_snd_ne _ _ _ h
  · exact fun h => dangerCheck_snd_ne _ _ _ h
  · exact fun h => dangerCheck_snd_ne _ _ _ h
  · exact fun h => dangerCheck_snd_ne _ _ _ h
  · intro h; exact absurd h (by simp)

/-- The Tier-1b loop yields `some` exactly when every segment is `cd`-only or
individually passes, and — unless a reason was already accumulated — at least one
segment is a passing non-`cd` segment. -/
theorem tier1bLoop_isSome (E : RegexEngine) (cfg : Config) :
    ∀ (segs : List String) (reason : String),
      (tier1bLoop E cfg segs reason).isSome = true ↔
        ((∀ s ∈ segs, isCdSkip (strTrim s) = true ∨ segPasses E cfg (strTrim s) = true) ∧
         (reason ≠ "" ∨
           ∃ s ∈ segs, isCdSkip (strTrim s) = false ∧ segPasses E cfg (strTrim s) = true)) := by
  intro segs
  induction segs with
  | nil =>
    intro reason
    by_cases h : reason = "" <;> simp [tier1bLoop, h]
  | cons seg rest ih =>
    intro reason
    by_cases hcd : isCdSkip (strTrim seg) = true
    · have hstep : tier1bLoop E cfg (seg :: rest) reason = tier1bLoop E cfg rest reason := by
        simp [tier1bLoop, hcd]
      rw [hstep, ih reason]
      simp [hcd]
    · have hcd' : isCdSkip (strTrim seg) = false := by simp [hcd]
      by_cases hm : segment_matches_patterns E (strTrim seg) cfg.auto_approve.bash_patterns = true
      · have hpass : segPasses E cfg (strTrim seg) = true := by simp [segPasses, hm]
        have hstep : tier1bLoop E cfg (seg :: rest) reason
            = tier1bLoop E cfg rest (if reason == "" then "safe pattern" else reason) := by
          simp [tier1bLoop, hcd, hm]
        have hnew : (if reason = "" then "safe pattern" else reason) ≠ "" := by
          by_cases h : reason = "" <;> simp [h]
        rw [hstep, ih]
        simp [hcd', hpass, hnew]
      · have hm' : segment_matches_patterns E (strTrim seg) cfg.auto_approve.bash_patterns
            = false := by simp [hm]
        by_cases hen : cfg.inline_scripts.enabled = true
        · cases hps : parse_inline_script (normalize_program_path (strTrim seg)) with
          | none =>
            have hfail : segPasses E cfg (strTrim seg) = false := by
              simp [segPasses, hm', hps]
            have hstep : tier1bLoop E cfg (seg :: rest) reason = none := by
              simp [tier1bLoop, hcd, hm', hen, hps]
            rw [hstep]
            simp [hcd', hfail]
          | some script =>
            by_cases hsafe : (is_inline_script_safe E cfg script).1 = true
            · have hpass : segPasses E cfg (strTrim seg) = true := by
                simp [segPasses, hm', hen, hps, hsafe]
              have hstep : tier1bLoop E cfg (seg :: rest) reason
                  = tier1bLoop E cfg rest (is_inline_script_safe E cfg script).2 := by
                simp [tier1bLoop, hcd, hm', hen, hps, hsafe]
              have hnew : (is_inline_script_safe E cfg script).2 ≠ "" :=
                is_inline_script_safe_snd_ne E cfg script hsafe
              rw [hstep, ih]
              simp [hcd', hpass, hnew]
            · have hsafe' : (is_inline_script_safe E cfg script).1 = false := by simp [hsafe]
              have hfail : segPasses E cfg (strTrim seg) = false := by
                simp [segPasses, hm', hps, hsafe']
              have hstep : tier1bLoop E cfg (seg :: rest) reason = none := by
                simp [tier1bLoop, hcd, hm', hen, hps, hsafe']
              rw [hstep]
              simp [hcd', hfail]
        · have hen' : cfg.inline_scripts.enabled = false := by simp [hen]
          have hfail : segPasses E cfg (strTrim seg) = false := by
            simp [segPasses, hm', hen']
          have hstep : tier1bLoop E cfg (seg :: rest) reason = none := by
            simp [tier1bLoop, hcd, hm', hen']
          rw [hstep]
          simp [hcd', hfail]

/-- C2 (amended): Tier 1b returns Allow if and only if every segment of the
trimmed command is `cd`-only or individually passes (allow pattern, or safe
recognized inline script with inline checks enabled), **and** at least one
non-`cd` segment passed — so a command whose segments are all `cd`-only (or
empty) yields no Allow and falls through instead. -/
theorem c2_tier1b_allow_iff (E : RegexEngine) (cfg : Config) (command : String) :
    (tier1b E cfg command).isSome = true ↔
      ((∀ s ∈ split_command_segments (strTrim command),
          isCdSkip (strTrim s) = true ∨ segPasses E cfg (strTrim s) = true) ∧
       ∃ s ∈ split_command_segments (strTrim command),
          isCdSkip (strTrim s) = false ∧ segPasses E cfg (strTrim s) = true) := by
  unfold tier1b
  rw [tier1bLoop_isSome]
  simp

/-! ### C6 — Allow outcome of a PreToolUse event -/

/-- C6 counterexample: the spec's own example input (`Read` on `x.txt`) is allowed
and exits 0, but `main` writes *nothing* to stdout — no JSON decision object is
emitted (the `HookResponse` type exists but is never printed). -/
theorem c6_counterexample :
    is_auto_approved litEngine default_config "Read" (Json.obj [("file_path", Json.str "x.txt")])
        = some "auto-approve tool"
    ∧ mainRun litEngine default_config "Read" (Json.obj [("file_path", Json.str "x.txt")])
        none (some "x.txt") false
      = { exitCode := 0, stdoutLines := [], stderrLines := [] } := by
  decide

/-- C6 (amended): on every Allow verdict the process exits 0 and writes nothing to
stdout (stderr carries a note only in verbose mode); the decision record that the
claim describes is the never-emitted `HookResponse.allow`, which does carry
`hook_event_name = "PreToolUse"`, `permission_decision = "allow"`, the free-text
reason and the suppression flag. -/
theorem c6_allow_exit0_no_stdout (E : RegexEngine) (cfg : Config) (tool : String)
    (inp : Json) (llmRes : Option (String × String)) (details : Option String)
    (verbose : Bool) (r : String)
    (h : is_auto_approved E cfg tool inp = some r) :
    mainRun E cfg tool inp llmRes details verbose
      = { exitCode := 0, stdoutLines := []
          stderrLines :=
            if verbose then ["[permission-hook] ALLOW: " ++ tool ++ " - " ++ r] else [] }
    ∧ HookResponse.allow r
      = { hook_specific_output :=
            { hook_event_name := "PreToolUse", permission_decision := "allow"
              permission_decision_reason := r }
          suppress_output := true } := by
  constructor
  · unfold mainRun mainDecide
    rw [h]
  · rfl

/-- Witness for C6 (amended): the `Read` example exits 0 with empty stdout. -/
theorem c6_allow_exit0_no_stdout_witness :
    mainRun litEngine default_config "Read" (Json.obj [("file_path", Json.str "x.txt")])
        none (some "x.txt") false
      = { exitCode := 0, stdoutLines := [], stderrLines := [] }
    ∧ HookResponse.allow "auto-approve tool"
      = { hook_specific_output :=
            { hook_event_name := "PreToolUse", permission_decision := "allow"
              permission_decision_reason := "auto-approve tool" }
          suppress_output := true } := by
  simpa using
    c6_allow_exit0_no_stdout litEngine default_config "Read"
      (Json.obj [("file_path", Json.str "x.txt")]) none (some "x.txt") false
      "auto-approve tool" (by decide)

/-! ### C7 — the ReviewComplete rule of the analyzer -/

/-- C7: when the message window is nonempty and none of the higher-priority rules
fires (no session-limit or API-error text in the last three messages, some tool was
used, no `ExitPlanMode` in the window, and the last tool is not `AskUserQuestion`),
the analyzer returns `ReviewComplete` exactly when no active tool was used
anywhere, at least one read-like tool was used, and the total text length exceeds
200 bytes; and the presence of any active tool anywhere in the window yields
`TaskComplete` instead. -/
theorem c7_review_iff (messages : List Message) (cfg : Config)
    (hrec : get_recent_assistant_messages messages 15 ≠ [])
    (hlimit : ∀ m ∈ (get_recent_assistant_messages messages 15).reverse.take 3,
        check_session_limit m.get_text = false)
    (hapi : ∀ m ∈ (get_recent_assistant_messages messages 15).reverse.take 3,
        check_api_error m.get_text = false)
    (htools : windowTools messages ≠ [])
    (hplan : "ExitPlanMode" ∉ windowTools messages)
    (hq : ((windowTools messages).getLast?).getD "" ≠ "AskUserQuestion") :
    (analyze_messages messages cfg = Status.ReviewComplete ↔
       ((∀ t ∈ windowTools messages, is_active_tool t = false) ∧
        (∃ t ∈ windowTools messages, is_read_like_tool t = true) ∧
        windowTextLength messages > 200))
    ∧ ((∃ t ∈ windowTools messages, is_active_tool t = true) →
        analyze_messages messages cfg = Status.TaskComplete) := by
  have hmsg : messages.isEmpty = false := by
    cases messages with
    | nil => exact absurd rfl hrec
    | cons _ _ => rfl
  have hrecB : (get_recent_assistant_messages messages 15).isEmpty = false := by
    cases hr : get_recent_assistant_messages messages 15 with
    | nil => exact absurd hr hrec
    | cons _ _ => rfl
  have hlimB : (((get_recent_assistant_messages messages 15).reverse.take 3).any
      fun m => check_session_limit m.get_text) = false := by
    rw [List.any_eq_false]
    intro m hm
    simp [hlimit m hm]
  have hapiB : (((get_recent_assistant_messages messages 15).reverse.take 3).any
      fun m => check_api_error m.get_text) = false := by
    rw [List.any_eq_false]
    intro m hm
    simp [hapi m hm]
  have htoolsB : (windowTools messages).isEmpty = false := by
    cases ht : windowTools messages with
    | nil => exact absurd ht htools
    | cons _ _ => rfl
  have hlastMem : ((windowTools messages).getLast?).getD "" ∈ windowTools messages := by
    cases ht : windowTools messages with
    | nil => exact absurd ht htools
    | cons a l =>
      rw [List.getLast?_eq_getLast _ (by simp)]
      exact List.getLast_mem _
  have hltPlan : (((windowTools messages).getLast?).getD "" == "ExitPlanMode") = false := by
    have : ((windowTools messages).getLast?).getD "" ≠ "ExitPlanMode" := by
      intro h
      exact hplan (h ▸ hlastMem)
    simp [this]
  have hltQ : (((windowTools messages).getLast?).getD "" == "AskUserQuestion") = false := by
    simp [hq]
  have hcont : ((windowTools messages).contains "ExitPlanMode") = false := by
    simp [hplan]
  have hchain : analyze_messages messages cfg =
      (if !(windowTools messages).any is_active_tool &&
          (windowTools messages).any is_read_like_tool &&
          decide (windowTextLength messages > 200) then
        Status.ReviewComplete
      else if is_active_tool (((windowTools messages).getLast?).getD "") then
        Status.TaskComplete
      else if !(windowTools messages).isEmpty then Status.TaskComplete
      else Status.Unknown) := by
    unfold analyze_messages
    simp only [hmsg, hrecB, hlimB, hapiB, htoolsB, hltPlan, hltQ, hcont,
      Bool.false_eq_true, if_false, Bool.false_and]
  constructor
  · rw [hchain]
    by_cases hact : (windowTools messages).any is_active_tool = true
    · obtain ⟨t0, ht0, hat0⟩ := List.any_eq_true.mp hact
      constructor
      · intro h
        by_cases hlt : is_active_tool (((windowTools messages).getLast?).getD "") = true <;>
          simp [hact, hlt, htoolsB] at h
      · rintro ⟨hno, -, -⟩
        exact absurd (hno t0 ht0) (by simp [hat0])
    · have hact' : (windowTools messages).any is_active_tool = false := by
        simp [hact]
      have hno : ∀ t ∈ windowTools messages, is_active_tool t = false := by
        intro t ht
        simpa using (List.any_eq_false.mp hact') t ht
      have hltAct : is_active_tool (((windowTools messages).getLast?).getD "") = false :=
        hno _ hlastMem
      by_cases hread : (windowTools messages).any is_read_like_tool = true
      · by_cases hlen : windowTextLength messages > 200
        · constructor
          · intro _
            exact ⟨hno, List.any_eq_true.mp hread, hlen⟩
          · intro _
            simp [hact', hread, hlen]
        · constructor
          · intro h
            simp [hact', hread, hlen, hltAct, htoolsB] at h
          · rintro ⟨-, -, h3⟩
            exact absurd h3 hlen
      · have hread' : (windowTools messages).any is_read_like_tool = false := by
          simp [hread]
        constructor
        · intro h
          simp [hact', hread', hltAct, htoolsB] at h
        · rintro ⟨-, h2, -⟩
          obtain ⟨t0, ht0, hr0⟩ := h2
          have := (List.any_eq_false.mp hread') t0 ht0
          simp [hr0] at this
  · intro hhas
    rw [hchain]
    have hact : (windowTools messages).any is_active_tool = true :=
      List.any_eq_true.mpr hhas
    by_cases hlt : is_active_tool (((windowTools messages).getLast?).getD "") = true <;>
      simp [hact, hlt, htoolsB]

set_option maxRecDepth 10000 in
/-- Witness for C7: the spec's scenario 4 transcript (`Read, Read, Grep`, 250
characters) is classified `ReviewComplete`, and scenario 5 (an `Edit` added in the
window) is classified `TaskComplete`. -/
theorem c7_review_iff_witness :
    analyze_messages demoReviewTranscript default_config = Status.ReviewComplete
    ∧ analyze_messages demoEditTranscript default_config = Status.TaskComplete := by
  constructor
  · exact ((c7_review_iff demoReviewTranscript default_config (by decide) (by decide)
      (by decide) (by decide) (by decide) (by decide)).1).mpr (by decide)
  · exact (c7_review_iff demoEditTranscript default_config (by decide) (by decide)
      (by decide) (by decide) (by decide) (by decide)).2 (by decide)

/-! ### C8 — mutual exclusion of concurrent lease acquisition -/

/-- One scheduler step preserves the mutual-exclusion invariant, provided the
wall clock stays inside the freshness window `[t0, t0 + 2)` and every existing
lease was created at or after `t0`: neither invocation is ever about to delete,
lease timestamps stay in the window, an invocation that returned `true` implies
the lease file exists, and not both invocations have returned `true`. -/
theorem leaseStep_inv (t0 now : Int) (who : Bool) (s : LeaseState)
    (hw1 : t0 ≤ now) (hw2 : now < t0 + 2)
    (h1 : s.pA ≠ LeasePc.del) (h2 : s.pB ≠ LeasePc.del)
    (h3 : ∀ t, s.file = some t → t0 ≤ t)
    (h4 : s.pA = LeasePc.done true → s.file ≠ none)
    (h5 : s.pB = LeasePc.done true → s.file ≠ none)
    (h6 : ¬(s.pA = LeasePc.done true ∧ s.pB = LeasePc.done true)) :
    (leaseStep s who now).pA ≠ LeasePc.del ∧
    (leaseStep s who now).pB ≠ LeasePc.del ∧
    (∀ t, (leaseStep s who now).file = some t → t0 ≤ t) ∧
    ((leaseStep s who now).pA = LeasePc.done true → (leaseStep s who now).file ≠ none) ∧
    ((leaseStep s who now).pB = LeasePc.done true → (leaseStep s who now).file ≠ none) ∧
    ¬((leaseStep s who now).pA = LeasePc.done true ∧
        (leaseStep s who now).pB = LeasePc.done true) := by
  obtain ⟨f, pa, pb⟩ := s
  cases who
  · -- the scheduler steps invocation B
    cases pb with
    | del => exact absurd rfl h2
    | done b => exact ⟨h1, h2, h3, h4, h5, h6⟩
    | create =>
      cases f with
      | none =>
        have hna : pa ≠ LeasePc.done true := fun hh => (h4 hh) rfl
        have hred : leaseStep ⟨none, pa, LeasePc.create⟩ false now
            = ⟨some now, pa, LeasePc.done true⟩ := rfl
        rw [hred]
        exact ⟨h1, by simp, by intro t ht; cases ht; exact hw1,
          fun _ => by simp, fun _ => by simp, by rintro ⟨ha, -⟩; exact hna ha⟩
      | some t =>
        have hred : leaseStep ⟨some t, pa, LeasePc.create⟩ false now
            = ⟨some t, pa, LeasePc.done false⟩ := rfl
        rw [hred]
        exact ⟨h1, by simp, h3, fun _ => by simp, by simp,
          by rintro ⟨-, hh⟩; simp at hh⟩
    | check =>
      cases f with
      | none =>
        have hred : leaseStep ⟨none, pa, LeasePc.check⟩ false now
            = ⟨none, pa, LeasePc.create⟩ := rfl
        rw [hred]
        exact ⟨h1, by simp, by simp, fun hh => absurd rfl (h4 hh),
          by simp, by rintro ⟨-, hh⟩; simp at hh⟩
      | some t =>
        have hfresh : now - t < 2 := by have := h3 t rfl; omega
        have hred : leaseStep ⟨some t, pa, LeasePc.check⟩ false now
            = ⟨some t, pa, LeasePc.done false⟩ := by
          simp [leaseStep, leaseStepProc, hfresh]
        rw [hred]
        exact ⟨h1, by simp, h3, fun _ => by simp, by simp,
          by rintro ⟨-, hh⟩; simp at hh⟩
  · -- the scheduler steps invocation A
    cases pa with
    | del => exact absurd rfl h1
    | done b => exact ⟨h1, h2, h3, h4, h5, h6⟩
    | create =>
      cases f with
      | none =>
        have hnb : pb ≠ LeasePc.done true := fun hh => (h5 hh) rfl
        have hred : leaseStep ⟨none, LeasePc.create, pb⟩ true now
            = ⟨some now, LeasePc.done true, pb⟩ := rfl
        rw [hred]
        exact ⟨by simp, h2, by intro t ht; cases ht; exact hw1,
          fun _ => by simp, fun _ => by simp, by rintro ⟨-, hb⟩; exact hnb hb⟩
      | some t =>
        have hred : leaseStep ⟨some t, LeasePc.create, pb⟩ true now
            = ⟨some t, LeasePc.done false, pb⟩ := rfl
        rw [hred]
        exact ⟨by simp, h2, h3, by simp, fun _ => by simp,
          by rintro ⟨hh, -⟩; simp at hh⟩
    | check =>
      cases f with
      | none =>
        have hred : leaseStep ⟨none, LeasePc.check, pb⟩ true now
            = ⟨none, LeasePc.create, pb⟩ := rfl
        rw [hred]
        exact ⟨by simp, h2, by simp, by simp, fun hh => absurd rfl (h5 hh),
          by rintro ⟨hh, -⟩; simp at hh⟩
      | some t =>
        have hfresh : now - t < 2 := by have := h3 t rfl; omega
        have hred : leaseStep ⟨some t, LeasePc.check, pb⟩ true now
            = ⟨some t, LeasePc.done false, pb⟩ := by
          simp [leaseStep, leaseStepProc, hfresh]
        rw [hred]
        exact ⟨by simp, h2, h3, by simp, fun _ => by simp,
          by rintro ⟨hh, -⟩; simp at hh⟩

/-- Running any schedule whose clocks stay in the freshness window preserves the
invariant down to its conclusion: not both invocations return `true`. -/
theorem leaseRun_inv (t0 : Int) :
    ∀ (sched : List (Bool × Int)) (s : LeaseState),
      (∀ e ∈ sched, t0 ≤ e.2 ∧ e.2 < t0 + 2) →
      s.pA ≠ LeasePc.del → s.pB ≠ LeasePc.del →
      (∀ t, s.file = some t → t0 ≤ t) →
      (s.pA = LeasePc.done true → s.file ≠ none) →
      (s.pB = LeasePc.done true → s.file ≠ none) →
      ¬(s.pA = LeasePc.done true ∧ s.pB = LeasePc.done true) →
      ¬((leaseRun s sched).pA = LeasePc.done true ∧
          (leaseRun s sched).pB = LeasePc.done true) := by
  intro sched
  induction sched with
  | nil => intro s _ _ _ _ _ _ h6; exact h6
  | cons e rest ih =>
    intro s hw h1 h2 h3 h4 h5 h6
    obtain ⟨who, now⟩ := e
    have hwe := hw (who, now) (by simp)
    obtain ⟨i1, i2, i3, i4, i5, i6⟩ :=
      leaseStep_inv t0 now who s hwe.1 hwe.2 h1 h2 h3 h4 h5 h6
    exact ih (leaseStep s who now) (fun e he => hw e (by simp [he])) i1 i2 i3 i4 i5 i6

/-- C8 counterexample: with a *stale* pre-existing lease (created at time 0) and
both invocations running at time 10, the interleaving `raceTrace` — both check and
observe staleness, A deletes and creates, then B deletes A's fresh lease and
creates — ends with **both** invocations having observed `acquire == true` at the
same instant, inside one freshness window: the at-most-one guarantee fails.  The
check/delete/create sequence is not atomic; only the final create is. -/
theorem c8_counterexample :
    leaseRun { file := some 0, pA := LeasePc.check, pB := LeasePc.check } raceTrace
      = { file := some 10, pA := LeasePc.done true, pB := LeasePc.done true } := by
  decide

/-- C8 (amended): when no lease file exists at the start of the window, the
guarantee holds — for every interleaving whose steps all happen inside the
freshness window `[t0, t0 + 2)`, at most one of the two invocations observes
`acquire == true`, because the stale-reclamation path is unreachable and
`create_new` admits exactly one creator. -/
theorem c8_no_lease_mutex (sched : List (Bool × Int)) (t0 : Int)
    (hw : ∀ e ∈ sched, t0 ≤ e.2 ∧ e.2 < t0 + 2) :
    ¬((leaseRun { file := none, pA := LeasePc.check, pB := LeasePc.check } sched).pA
          = LeasePc.done true ∧
      (leaseRun { file := none, pA := LeasePc.check, pB := LeasePc.check } sched).pB
          = LeasePc.done true) :=
  leaseRun_inv t0 sched { file := none, pA := LeasePc.check, pB := LeasePc.check }
    hw (by simp) (by simp) (by simp) (by simp) (by simp) (by simp)

/-- Witness for C8 (amended): a concrete lock-step interleaving from the empty
state, all steps at time 5. -/
theorem c8_no_lease_mutex_witness :
    ¬((leaseRun { file := none, pA := LeasePc.check, pB := LeasePc.check }
          [(true, 5), (false, 5), (true, 5), (false, 5)]).pA = LeasePc.done true ∧
      (leaseRun { file := none, pA := LeasePc.check, pB := LeasePc.check }
          [(true, 5), (false, 5), (true, 5), (false, 5)]).pB = LeasePc.done true) :=
  c8_no_lease_mutex [(true, 5), (false, 5), (true, 5), (false, 5)] 5 (by decide)

/-! ### C9 — idempotence and expiry of `acquire_lock` -/

/-- C9: starting with no lease, an acquire at `t0` returns `true`; an immediately
successive acquire at `t1` (within the 2-second freshness window of the lease
created at `t0`) returns `false` and leaves the lease untouched; a third acquire
at `t2`, after the threshold has elapsed, deletes the stale lease, re-creates it
with timestamp `t2`, and returns `true` again. -/
theorem c9_acquire_idempotence (t0 t1 t2 : Int) (h01 : t1 - t0 < 2) (h02 : 2 ≤ t2 - t0) :
    (acquireSeq none t0).1 = true
    ∧ (acquireSeq (acquireSeq none t0).2 t1).1 = false
    ∧ (acquireSeq (acquireSeq (acquireSeq none t0).2 t1).2 t2).1 = true
    ∧ (acquireSeq (acquireSeq (acquireSeq none t0).2 t1).2 t2).2 = some t2 := by
  have e0 : acquireSeq none t0 = (true, some t0) := rfl
  have e1 : acquireSeq (some t0) t1 = (false, some t0) := by
    show (if t1 - t0 < 2 then ((false, some t0) : Bool × Option Int)
        else (true, some t1)) = (false, some t0)
    rw [if_pos h01]
  have e2 : acquireSeq (some t0) t2 = (true, some t2) := by
    show (if t2 - t0 < 2 then ((false, some t0) : Bool × Option Int)
        else (true, some t2)) = (true, some t2)
    rw [if_neg (by omega : ¬(t2 - t0 < 2))]
  simp [e0, e1, e2]

/-- Witness for C9: acquires at times 100, 101 and 102. -/
theorem c9_acquire_idempotence_witness :
    (acquireSeq none 100).1 = true
    ∧ (acquireSeq (acquireSeq none 100).2 101).1 = false
    ∧ (acquireSeq (acquireSeq (acquireSeq none 100).2 101).2 102).1 = true
    ∧ (acquireSeq (acquireSeq (acquireSeq none 100).2 101).2 102).2 = some 102 :=
  c9_acquire_idempotence 100 101 102 (by decide) (by decide)

/-! ### C10 — circuit-breaker admission and the retry loop -/

/-- C10 counterexample: threshold 2, three always-failing attempts.  The breaker
opens after the second failure, yet the third attempt of the same retry loop is
still handed to the transport (`sendsOpenFlags` records the breaker's open flag at
each actual send: the third entry is `true`) — the loop body never consults the
breaker, so attempts after it opens are *not* rejected. -/
theorem c10_counterexample :
    (send_webhook (CircuitBreaker.new 2 30) 0 true (fun _ => false)
        (fun k => (k : Int)) 3).sendsOpenFlags = [false, false, true]
    ∧ (send_webhook (CircuitBreaker.new 2 30) 0 true (fun _ => false)
        (fun k => (k : Int)) 3).cb.is_open = true := by
  decide

/-- C10 (amended): the breaker's admission holds at *call* granularity, not per
attempt: a `send_webhook` call that begins while the circuit is open, before
`recovery_timeout` has elapsed since the last recorded failure, is rejected
outright — zero delivery attempts are handed to the transport. -/
theorem c10_breaker_entry_admission (cb : CircuitBreaker) (entryNow : Int)
    (rateOk : Bool) (succ : Nat → Bool) (now : Nat → Int) (maxAttempts : Nat)
    (tl : Int) (hopen : cb.is_open = true) (hlast : cb.last_failure = some tl)
    (hrec : entryNow - tl < cb.recovery_timeout) :
    send_webhook cb entryNow rateOk succ now maxAttempts
      = { ok := false, rejectedByBreaker := true, cb := cb, sendsOpenFlags := [] } := by
  have hchk : cb.isOpenCheck entryNow = (true, cb) := by
    unfold CircuitBreaker.isOpenCheck
    rw [hopen, hlast]
    simp only [Bool.not_true, Bool.false_eq_true, if_false]
    rw [if_neg (not_le.mpr hrec)]
  unfold send_webhook
  rw [hchk]
  rfl

/-- Witness for C10 (amended): an open breaker (threshold 2, last failure at time
5, 30-second recovery) rejects a call at time 10 without any send. -/
theorem c10_breaker_entry_admission_witness :
    send_webhook
        { failure_count := 2, last_failure := some 5, is_open := true,
          threshold := 2, recovery_timeout := 30 }
        10 true (fun _ => false) (fun k => (k : Int)) 3
      = { ok := false, rejectedByBreaker := true
          cb := { failure_count := 2, last_failure := some 5, is_open := true,
                  threshold := 2, recovery_timeout := 30 }
          sendsOpenFlags := [] } :=
  c10_breaker_entry_admission
    { failure_count := 2, last_failure := some 5, is_open := true,
      threshold := 2, recovery_timeout := 30 }
    10 true (fun _ => false) (fun k => (k : Int)) 3 5 rfl rfl (by decide)

end PermissionHook
